import Mathlib

/-!
Shallow embedding of the DGM evolution core (TypeScript sources under
`src/dgm-vscode-extension` and the unnamed parts of the same repository).

Modelling conventions:
* JavaScript numbers are modelled as `ℚ` (all arithmetic the claims touch is
  exact decimal arithmetic); integer-valued quantities are `Nat`/`Int`.
* `Math.random()` is modelled as an explicit stream `r : Nat → ℚ` together
  with a position counter that each call advances; values are assumed to lie
  in `[0,1)` only where a theorem needs it.
* `Date.now()` is modelled as an explicit `now : Nat` parameter.
* String ids produced by the `generate...Id` helpers (timestamp + random
  suffix) are modelled as opaque `Nat` tokens drawn from a fresh-id counter.
* Semantic-version strings `"x.y.z"` are modelled as a `Version` structure;
  the baseline `'1.0.0'` becomes `⟨1, 0, 0⟩`.
* `Math.log2` / `Math.sqrt` are irrational-valued; they appear only in the
  population statistics (`diversity`, `convergence`) which no control flow
  reads.  They are modelled as oracle functions in `JsMath` so every
  definition stays executable; no property of them is ever assumed.
* JavaScript `Array.prototype.sort` with comparator
  `(a, b) => b.key - a.key` is a stable descending sort (TimSort); it is
  modelled by `List.insertionSort` with the reflexive relation
  `fun a b => key b ≤ key a`, which is the same stable descending order.
* The random shuffle `[...xs].sort(() => Math.random() - 0.5)` produces an
  implementation-defined permutation consuming an implementation-defined
  number of draws; it is modelled as an oracle
  `shuffle : Nat → List PopulationAgent → List PopulationAgent` indexed by
  the current stream position, advancing the position by the list length.
-/

namespace DGM

/-- AgentType enum from shared/types/Agent.ts (five variants). -/
inductive AgentType where
  | requirements
  | architecture
  | codeGeneration
  | testing
  | deployment
deriving DecidableEq

/-- Enumeration order of `Object.values(AgentType)`. -/
def AgentType.values : List AgentType :=
  [.requirements, .architecture, .codeGeneration, .testing, .deployment]

/-- Agent capabilities are opaque to the evolution core; a capability is
modelled as an opaque token. -/
structure Capability where
  token : Nat
deriving DecidableEq

/-- Five named fitness components of FitnessScore (shared/types). -/
structure FitnessComponents where
  codeQuality : ℚ
  performance : ℚ
  reliability : ℚ
  userSatisfaction : ℚ
  resourceEfficiency : ℚ
deriving DecidableEq

/-- FitnessScore from shared/types: an overall value, five components and a
timestamp. -/
structure FitnessScore where
  overall : ℚ
  components : FitnessComponents
  timestamp : Nat
deriving DecidableEq

/-- Semantic version `"major.minor.patch"`, modelled structurally. -/
structure Version where
  major : Nat
  minor : Nat
  patch : Nat
deriving DecidableEq

/-- Agent metadata (shared/types/Agent.ts), restricted to the fields the
evolution core reads or writes. -/
structure AgentMetadata where
  createdAt : Nat
  updatedAt : Nat
  parentId : Option Nat
  generation : Nat
  mutationHistory : List Nat
  tags : List String
deriving DecidableEq

/-- An agent as manipulated by the evolution core: identity, variant tag,
version, capability list and metadata.  The externally supplied `execute`
capability is not part of the value; agent execution is abstracted behind
the component-evaluation oracle of the fitness evaluator. -/
structure Agent where
  id : Nat
  type : AgentType
  version : Version
  capabilities : List Capability
  metadata : AgentMetadata
deriving DecidableEq

/-- PopulationAgent: `(agent, fitness, age, isElite)`. -/
structure PopulationAgent where
  agent : Agent
  fitness : FitnessScore
  age : Nat
  isElite : Bool
deriving DecidableEq

/-- PopulationStatistics from shared/types/Evolution.ts. -/
structure PopulationStatistics where
  size : Nat
  averageFitness : ℚ
  bestFitness : ℚ
  worstFitness : ℚ
  diversity : ℚ
  convergence : ℚ
  mutationSuccessRate : ℚ
deriving DecidableEq

/-- Population from shared/types/Evolution.ts. -/
structure Population where
  id : Nat
  generation : Nat
  agents : List PopulationAgent
  statistics : PopulationStatistics
  timestamp : Nat
deriving DecidableEq

/-- SelectionStrategy enum from shared/types/Evolution.ts (five values; the
dispatcher in SelectionStrategy.ts handles the first three and sends the
rest to its `default` branch). -/
inductive SelectionStrategyType where
  | tournament
  | rouletteWheel
  | rank
  | truncationSelection
  | stochasticUniversalSampling
deriving DecidableEq

/-- MutationType enum from shared/types/Evolution.ts (six values). -/
inductive MutationType where
  | parameterTuning
  | methodModification
  | structuralChange
  | behaviorAlteration
  | capabilityAddition
  | optimizationRefactor
deriving DecidableEq

/-- Enumeration order of `Object.values(MutationType)`. -/
def MutationType.values : List MutationType :=
  [.parameterTuning, .methodModification, .structuralChange,
   .behaviorAlteration, .capabilityAddition, .optimizationRefactor]

/-- EvolutionConfig (shared/types/Evolution.ts), restricted to the fields the
embedded code paths read. -/
structure EvolutionConfig where
  populationSize : Nat
  mutationRate : ℚ
  crossoverRate : ℚ
  elitismRate : ℚ
  selectionStrategy : SelectionStrategyType
  convergenceThreshold : ℚ
deriving DecidableEq

/-- EvolutionPhase enum from shared/types/Evolution.ts. -/
inductive EvolutionPhase where
  | initialization
  | evaluation
  | selection
  | crossover
  | mutation
  | replacement
  | completed
deriving DecidableEq

/-- CycleResults.  `unchanged` is computed by subtraction in JavaScript and
can go negative, hence `Int`. -/
structure CycleResults where
  improved : Nat
  degraded : Nat
  unchanged : Int
  failed : Nat
  averageFitnessChange : ℚ
deriving DecidableEq

/-- EvolutionCycle (shared/types/Evolution.ts); `mutations` holds applied
mutation ids (the engine never pushes into it, so it stays empty). -/
structure EvolutionCycle where
  id : Nat
  generation : Nat
  startTime : Nat
  endTime : Option Nat
  phase : EvolutionPhase
  population : Population
  mutations : List Nat
  results : CycleResults
deriving DecidableEq

/-- EvolutionHistory, restricted to the fields the engine reads or writes
(`bestAgents` and `milestones` are never touched by the embedded paths). -/
structure EvolutionHistory where
  cycles : List EvolutionCycle
  totalGenerations : Nat
  totalMutations : Nat
  successfulMutations : Nat
deriving DecidableEq

/-- Oracle stand-ins for `Math.log2` and `Math.sqrt` (irrational-valued;
used only in the statistics fields `diversity` and `convergence`, which no
embedded control flow reads).  No property of these functions is assumed
anywhere. -/
structure JsMath where
  log2 : ℚ → ℚ
  sqrt : ℚ → ℚ

/-- Math.floor on a rational, as the JavaScript code applies it. -/
def jsFloor (q : ℚ) : Int := ⌊q⌋

/-- Math.floor truncated to `Nat` for use as a count or index (the embedded
call sites apply it to non-negative values; a negative argument clamps to
0 exactly as `slice`/`take` would). -/
def jsFloorNat (q : ℚ) : Nat := (jsFloor q).toNat

/-! Section: FitnessEvaluator (src/unnamed/part_003) -/

/-- Failure of the whole component-evaluation pipeline (an exception escaping
`evaluateComponents`, i.e. the externally supplied agent execution). -/
inductive EvalError where
  | exec
deriving DecidableEq

namespace FitnessEvaluator

/-- Fixed default fitness weights of FitnessEvaluator:
0.25 / 0.20 / 0.25 / 0.15 / 0.15. -/
structure FitnessWeights where
  codeQuality : ℚ
  performance : ℚ
  reliability : ℚ
  userSatisfaction : ℚ
  resourceEfficiency : ℚ
deriving DecidableEq

/-- Default weights field of FitnessEvaluator. -/
def weights : FitnessWeights :=
  { codeQuality := 25/100
    performance := 20/100
    reliability := 25/100
    userSatisfaction := 15/100
    resourceEfficiency := 15/100 }

/-- `calculateOverallFitness` (part_003 lines 285-295): the weighted sum of
the five components with the evaluator's weights. -/
def calculateOverallFitness (components : FitnessComponents) : ℚ :=
  components.codeQuality * weights.codeQuality +
  components.performance * weights.performance +
  components.reliability * weights.reliability +
  components.userSatisfaction * weights.userSatisfaction +
  components.resourceEfficiency * weights.resourceEfficiency

/-- `createMinimalFitness` (part_003 lines 445-457): the clearly-flagged
fallback score with overall 0.1 and every component 0.1. -/
def createMinimalFitness (t : Nat) : FitnessScore :=
  { overall := 1/10
    components :=
      { codeQuality := 1/10
        performance := 1/10
        reliability := 1/10
        userSatisfaction := 1/10
        resourceEfficiency := 1/10 }
    timestamp := t }

/-- `evaluate` (part_003 lines 59-93).  The body runs `evaluateComponents`
(which executes the agent against benchmark tasks) inside a try/catch; the
outcome of that external interaction is passed in as
`compRes : Except EvalError FitnessComponents`.  On success the score is the
weighted combination; on any error the catch branch returns the minimal
fitness, so `evaluate` is a total function — it never fails. -/
def evaluate (compRes : Except EvalError FitnessComponents) (t : Nat) :
    FitnessScore :=
  match compRes with
  | .ok components =>
      { overall := calculateOverallFitness components
        components := components
        timestamp := t }
  | .error _ => createMinimalFitness t

end FitnessEvaluator

/-! Section: PopulationManager (src/unnamed/part_004) -/

namespace PopulationManager

/-- `createInitialFitness` (part_004 lines 250-265): overall uniform in
[0.3, 0.7) from one draw, each component jittered around it by
`(Math.random() - 0.5) * 0.2` with one further draw per component.  `r` is
the Math.random() stream and `k` the current stream position (six draws are
consumed, in field-literal order). -/
def createInitialFitness (r : Nat → ℚ) (k : Nat) (t : Nat) : FitnessScore :=
  let overall := 3/10 + r k * (4/10)
  { overall := overall
    components :=
      { codeQuality := overall + (r (k+1) - 1/2) * (2/10)
        performance := overall + (r (k+2) - 1/2) * (2/10)
        reliability := overall + (r (k+3) - 1/2) * (2/10)
        userSatisfaction := overall + (r (k+4) - 1/2) * (2/10)
        resourceEfficiency := overall + (r (k+5) - 1/2) * (2/10) }
    timestamp := t }

/-- `calculateDiversity` (part_004 lines 267-293): normalized Shannon
entropy of the agent-type distribution, with `Math.log2` abstracted as the
oracle `m.log2`. -/
def calculateDiversity (m : JsMath) (agents : List PopulationAgent) : ℚ :=
  if agents.length < 2 then 1 else
  let total : ℚ := agents.length
  let typeCounts := (AgentType.values.map
    (fun ty => agents.countP (fun a => a.agent.type = ty))).filter (0 < ·)
  let diversity := typeCounts.foldl
    (fun d c => d - ((c : ℚ) / total) * m.log2 ((c : ℚ) / total)) 0
  let maxDiversity := m.log2 (min agents.length AgentType.values.length : Nat)
  if 0 < maxDiversity then diversity / maxDiversity else 0

/-- Maximum of a fitness-value list with first element as the seed, as
`Math.max(...fitnessValues)` computes it on a non-empty list. -/
def listMax : List ℚ → ℚ
  | [] => 0
  | v :: vs => vs.foldl max v

/-- Minimum counterpart for `Math.min(...fitnessValues)`. -/
def listMin : List ℚ → ℚ
  | [] => 0
  | v :: vs => vs.foldl min v

/-- `calculateStatistics` (part_004 lines 84-119).  `Math.sqrt` is
abstracted as the oracle `m.sqrt`; the JavaScript `(best - worst || 1)`
guard becomes an explicit zero test. -/
def calculateStatistics (m : JsMath) (agents : List PopulationAgent) :
    PopulationStatistics :=
  match agents with
  | [] =>
      { size := 0, averageFitness := 0, bestFitness := 0, worstFitness := 0
        diversity := 0, convergence := 0, mutationSuccessRate := 0 }
  | _ :: _ =>
      let fitnessValues := agents.map (fun a => a.fitness.overall)
      let sum : ℚ := fitnessValues.foldl (· + ·) 0
      let averageFitness := sum / (fitnessValues.length : ℚ)
      let bestFitness := listMax fitnessValues
      let worstFitness := listMin fitnessValues
      let diversity := calculateDiversity m agents
      let variance : ℚ := ((fitnessValues.map
        (fun v => (v - averageFitness) ^ 2)).foldl (· + ·) 0) /
        (fitnessValues.length : ℚ)
      let range := if bestFitness - worstFitness = 0 then 1
        else bestFitness - worstFitness
      let convergence := 1 - m.sqrt variance / range
      { size := agents.length
        averageFitness := averageFitness
        bestFitness := bestFitness
        worstFitness := worstFitness
        diversity := diversity
        convergence := max 0 (min 1 convergence)
        mutationSuccessRate := 1/2 }

/-- `createPopulation` (part_004 lines 65-82): wraps the given agents into
population members, giving every member a fresh randomized initial fitness,
age 0 and elite flag for the first `Math.floor(length * 0.1)` positions.
Each member consumes six draws from the stream starting at `k`. -/
def createPopulation (m : JsMath) (r : Nat → ℚ) (k t : Nat)
    (agents : List Agent) (generation : Nat) (popId : Nat) : Population :=
  let eliteBound := jsFloorNat ((agents.length : ℚ) * (1/10))
  let populationAgents := agents.enum.map (fun p =>
    { agent := p.2
      fitness := createInitialFitness r (k + 6 * p.1) t
      age := 0
      isElite := p.1 < eliteBound : PopulationAgent })
  { id := popId
    generation := generation
    agents := populationAgents
    statistics := calculateStatistics m populationAgents
    timestamp := t }

end PopulationManager

/-! Section: SelectionStrategy (src/core/evolution/SelectionStrategy.ts) -/

/-- A JavaScript runtime exception.  The only one the embedded paths can
raise is the TypeError thrown by `Array.prototype.reduce` on an empty array
with no initial value (tournament selection over an empty population). -/
inductive JsError where
  | typeError
deriving DecidableEq

namespace SelectionStrategy

/-- Shuffle oracle: models `[...agents].sort(() => Math.random() - 0.5)`.
The permutation it produces and the number of draws it consumes are
implementation-defined, so it is an oracle indexed by the current stream
position; the position is advanced by the list length. -/
def Shuffle : Type := Nat → List PopulationAgent → List PopulationAgent

/-- `selectRandomAgents` (SelectionStrategy.ts lines 65-68): shuffle a copy
of the population and take a prefix. -/
def selectRandomAgents (shuffle : Shuffle) (k : Nat)
    (agents : List PopulationAgent) (count : Nat) : List PopulationAgent :=
  (shuffle k agents).take count

/-- The `tournament.reduce` step of tournament selection: on an empty
tournament JavaScript throws a TypeError; otherwise the member with the
strictly greater `fitness.overall` wins, earlier members winning ties. -/
def tournamentWinner : List PopulationAgent → Except JsError PopulationAgent
  | [] => .error .typeError
  | b :: rest => .ok (rest.foldl
      (fun best current =>
        if best.fitness.overall < current.fitness.overall then current
        else best) b)

/-- The `for` loop of `tournamentSelection`, running `count` tournaments.
Each iteration shuffles the population (advancing the stream position by
the population length) and reduces the taken prefix to a winner. -/
def tournamentLoop (shuffle : Shuffle) (agents : List PopulationAgent)
    (tournamentSize : Nat) : Nat → Nat → Except JsError (List Agent × Nat)
  | 0, k => .ok ([], k)
  | n + 1, k =>
    match tournamentWinner
        (selectRandomAgents shuffle k agents tournamentSize) with
    | .error e => .error e
    | .ok winner =>
      match tournamentLoop shuffle agents tournamentSize n
          (k + agents.length) with
      | .error e => .error e
      | .ok (rest, kEnd) => .ok (winner.agent :: rest, kEnd)

/-- `tournamentSelection` (lines 26-39): `count` tournaments of size
`max(2, Math.floor(length * 0.1))`. -/
def tournamentSelection (shuffle : Shuffle) (k : Nat)
    (agents : List PopulationAgent) (count : Nat) :
    Except JsError (List Agent × Nat) :=
  let tournamentSize := max 2 (jsFloorNat ((agents.length : ℚ) * (1/10)))
  tournamentLoop shuffle agents tournamentSize count k

/-- The inner `for...of` walk of roulette-wheel selection: subtract each
member's fitness from the running value and select the first member at
which it reaches zero or below; if the walk exhausts the population nothing
is selected. -/
def rouletteDraw : List PopulationAgent → ℚ → Option Agent
  | [], _ => none
  | a :: rest, randomValue =>
    let remaining := randomValue - a.fitness.overall
    if remaining ≤ 0 then some a.agent else rouletteDraw rest remaining

/-- The `for` loop of `rouletteWheelSelection`: one draw per iteration; a
failed walk simply pushes nothing. -/
def rouletteLoop (r : Nat → ℚ) (agents : List PopulationAgent)
    (totalFitness : ℚ) : Nat → Nat → List Agent × Nat
  | 0, k => ([], k)
  | n + 1, k =>
    let (rest, kEnd) := rouletteLoop r agents totalFitness n (k + 1)
    match rouletteDraw agents (r k * totalFitness) with
    | some a => (a :: rest, kEnd)
    | none => (rest, kEnd)

/-- `rouletteWheelSelection` (lines 41-58). -/
def rouletteWheelSelection (r : Nat → ℚ) (k : Nat)
    (agents : List PopulationAgent) (count : Nat) : List Agent × Nat :=
  let totalFitness := (agents.map (fun a => a.fitness.overall)).foldl (· + ·) 0
  rouletteLoop r agents totalFitness count k

/-- Stable descending sort by `fitness.overall`, the semantics of the
JavaScript `sort((a, b) => b.fitness.overall - a.fitness.overall)` calls. -/
def sortByFitnessDesc (agents : List PopulationAgent) :
    List PopulationAgent :=
  agents.insertionSort (fun a b => b.fitness.overall ≤ a.fitness.overall)

/-- `rankSelection` (lines 60-63): sort descending, take the first `count`
agents (no randomness, never fails). -/
def rankSelection (agents : List PopulationAgent) (count : Nat) :
    List Agent :=
  ((sortByFitnessDesc agents).take count).map (fun a => a.agent)

/-- `select` (lines 11-24): dispatch on the configured strategy; the
`default` branch (truncation, stochastic universal sampling) also runs
tournament selection.  The returned `Nat` is the advanced stream
position. -/
def select (strategy : SelectionStrategyType) (shuffle : Shuffle)
    (r : Nat → ℚ) (k : Nat) (agents : List PopulationAgent) (count : Nat) :
    Except JsError (List Agent × Nat) :=
  match strategy with
  | .tournament => tournamentSelection shuffle k agents count
  | .rouletteWheel => .ok (rouletteWheelSelection r k agents count)
  | .rank => .ok (rankSelection agents count, k)
  | _ => tournamentSelection shuffle k agents count

end SelectionStrategy

/-! Section: CrossoverOperator (src/core/evolution/CrossoverOperator.ts) -/

namespace CrossoverOperator

/-- `createChild` (lines 15-40): the child copies the primary parent, gets a
freshly generated id (here: the next value of the fresh-id counter), resets
the version to the baseline 1.0.0, appends the first capability of the
secondary parent (if any) to the primary parent's capabilities, and derives
its metadata from the primary parent with `parentId`, `generation`
(max of both parents plus one), an empty mutation history and the
`crossover` tag.  The two weight parameters are accepted and ignored, as in
the source. -/
def createChild (childId : Nat) (primaryParent secondaryParent : Agent)
    (_primaryWeight _secondaryWeight : ℚ) : Agent :=
  { primaryParent with
    id := childId
    version := ⟨1, 0, 0⟩
    capabilities :=
      primaryParent.capabilities ++ secondaryParent.capabilities.take 1
    metadata :=
      { primaryParent.metadata with
        parentId := some primaryParent.id
        generation := max primaryParent.metadata.generation
          secondaryParent.metadata.generation + 1
        mutationHistory := []
        tags := ["crossover"] } }

/-- `crossover` (lines 7-13): two children, each primarily derived from one
parent; both ids come from the fresh-id counter, which advances by two. -/
def crossover (idGen : Nat) (parent1 parent2 : Agent) :
    List Agent × Nat :=
  ([createChild idGen parent1 parent2 (7/10) (3/10),
    createChild (idGen + 1) parent2 parent1 (7/10) (3/10)],
   idGen + 2)

end CrossoverOperator

/-! Section: MutationGenerator (src/core/evolution/MutationGenerator.ts) -/

namespace MutationGenerator

/-- Patch-version bump of `incrementVersion` on a well-formed
`major.minor.patch` string. -/
def incrementVersion (v : Version) : Version :=
  { v with patch := v.patch + 1 }

/-- `mutate` (MutationGenerator.ts lines 89-99) with `generateMutation` and
`applyMutation` inlined: with probability `1 - mutationRate`
(first draw strictly above the rate) the agent is returned unchanged;
otherwise a mutation type is picked uniformly (second draw), a mutation id
and a new agent id are generated from the fresh-id counter, and a new agent
is produced with incremented patch version, `parentId`, incremented
generation and the mutation id appended to its history.  Returns the agent,
the advanced stream position and the advanced id counter. -/
def mutate (cfg : EvolutionConfig) (r : Nat → ℚ) (k : Nat) (idGen : Nat)
    (agent : Agent) : Agent × Nat × Nat :=
  if cfg.mutationRate < r k then (agent, k + 1, idGen)
  else
    let types := MutationType.values
    let _mutationType := types.getD
      (jsFloorNat (r (k + 1) * (types.length : ℚ))) .parameterTuning
    let mutationId := idGen
    let newAgentId := idGen + 1
    ({ agent with
        id := newAgentId
        version := incrementVersion agent.version
        metadata :=
          { agent.metadata with
            parentId := some agent.id
            generation := agent.metadata.generation + 1
            mutationHistory := agent.metadata.mutationHistory ++ [mutationId] } },
     k + 2, idGen + 2)

end MutationGenerator

/-! Section: EvolutionEngine (src/core/evolution/EvolutionEngine.ts)

The engine is modelled as a state-transition function.  The collaborators
the spec marks external (agent execution, clock, random source, the
implementation-defined shuffle, and the irrational-valued math functions)
are collected in `Env`.  Archival of best agents mutates only the archive
store, which is modelled separately below, so `archiveBestAgents` does not
appear in the engine state transition.  UI (status bar), logging and
telemetry calls have no effect on the modelled state and are omitted. -/

/-- External collaborators of one `evolve` call. -/
structure Env where
  rng : Nat → ℚ
  now : Nat
  math : JsMath
  shuffle : SelectionStrategy.Shuffle
  evalComponents : Agent → Except EvalError FitnessComponents

/-- The engine-owned mutable state relevant to the embedded paths.  The
source's `shouldStop` flag is set to `false` on entry to `evolve` and can
only be raised by a concurrent `stopEvolution`; a single modelled call
therefore never observes it raised, and it is omitted here.
`currentPopulation` is non-optional because `runEvolutionCycle` asserts it
(`this.currentPopulation!`). -/
structure EngineState where
  isRunning : Bool
  currentPopulation : Population
  history : EvolutionHistory
  idGen : Nat
deriving DecidableEq

namespace EvolutionEngine

/-- `evaluatePopulation` (EvolutionEngine.ts lines 307-328): re-score every
member in place via the fitness evaluator, then recompute statistics. -/
def evaluatePopulation (env : Env) (pop : Population) : Population :=
  let agents := pop.agents.map (fun pa =>
    { pa with
      fitness := FitnessEvaluator.evaluate (env.evalComponents pa.agent)
        env.now })
  { pop with
    agents := agents
    statistics := PopulationManager.calculateStatistics env.math agents }

/-- `selectParents` (lines 330-342): `Math.floor(length * crossoverRate)`
parents via the configured selection strategy. -/
def selectParents (cfg : EvolutionConfig) (env : Env) (k : Nat)
    (pop : Population) : Except JsError (List Agent × Nat) :=
  let numParents := jsFloorNat ((pop.agents.length : ℚ) * cfg.crossoverRate)
  SelectionStrategy.select cfg.selectionStrategy env.shuffle env.rng k
    pop.agents numParents

/-- `performCrossover` (lines 344-356): pair up consecutive parents; a
trailing unpaired parent is dropped by the loop bound `i < length - 1`. -/
def performCrossover (idGen : Nat) : List Agent → List Agent × Nat
  | p1 :: p2 :: rest =>
    let (children, idGen1) := CrossoverOperator.crossover idGen p1 p2
    let (offspring, idGen2) := performCrossover idGen1 rest
    (children ++ offspring, idGen2)
  | _ => ([], idGen)

/-- `performMutation` (lines 358-377): mutate each offspring in order.  The
modelled `mutate` is total, so the catch branch of the source (keep the
original agent, count the attempt only) is unreachable; every attempt is
counted as attempted and successful.  Returns the mutated agents, the
advanced stream position, the advanced id counter and the number of
attempts. -/
def performMutation (cfg : EvolutionConfig) (r : Nat → ℚ) :
    List Agent → Nat → Nat → List Agent × Nat × Nat × Nat
  | [], k, idGen => ([], k, idGen, 0)
  | a :: rest, k, idGen =>
    let (mutated, k1, idGen1) := MutationGenerator.mutate cfg r k idGen a
    let (restMutated, k2, idGen2, count) :=
      performMutation cfg r rest k1 idGen1
    (mutated :: restMutated, k2, idGen2, count + 1)

/-- `replacePopulation` (lines 379-401): keep the best
`Math.floor(length * elitismRate)` agents of the current population, put
the new agents after them, truncate to `populationSize`, and build the next
population (which re-assigns every member a randomized initial fitness).
Nothing pads the combined list when it is shorter than the target size. -/
def replacePopulation (cfg : EvolutionConfig) (m : JsMath) (r : Nat → ℚ)
    (k t : Nat) (pop : Population) (newAgents : List Agent) (popId : Nat) :
    Population :=
  let eliteCount := jsFloorNat ((pop.agents.length : ℚ) * cfg.elitismRate)
  let elites := ((SelectionStrategy.sortByFitnessDesc pop.agents).take
    eliteCount).map (fun a => a.agent)
  let combinedAgents := elites ++ newAgents
  PopulationManager.createPopulation m r k t
    (combinedAgents.take cfg.populationSize) (pop.generation + 1) popId

/-- `updateCycleResults` (lines 403-410): placeholder randomized counts;
`unchanged` is the (possibly negative) remainder against the cycle's
population snapshot length. -/
def updateCycleResults (r : Nat → ℚ) (k : Nat) (results : CycleResults)
    (snapshotLength : Nat) : CycleResults × Nat :=
  let improved := jsFloorNat (r k * 5)
  let degraded := jsFloorNat (r (k + 1) * 2)
  ({ results with
      improved := improved
      degraded := degraded
      unchanged := (snapshotLength : Int) - improved - degraded },
   k + 2)

/-- `calculateVariance` (lines 424-428). -/
def calculateVariance (values : List ℚ) : ℚ :=
  let mean := values.foldl (· + ·) 0 / (values.length : ℚ)
  (values.map (fun v => (v - mean) ^ 2)).foldl (· + ·) 0 /
    (values.length : ℚ)

/-- `hasConverged` (lines 412-422): with at least 10 recorded cycles, the
variance of the last 10 average-fitness values is compared against the
threshold.  `history.cycles` is only appended to after the cycle finishes,
so this value is constant throughout one `evolve` call. -/
def hasConverged (cfg : EvolutionConfig) (history : EvolutionHistory) :
    Bool :=
  if history.cycles.length < 10 then false
  else
    let recentCycles := history.cycles.drop (history.cycles.length - 10)
    let fitnessValues := recentCycles.map
      (fun c => c.population.statistics.averageFitness)
    calculateVariance fitnessValues < cfg.convergenceThreshold

/-- Mutable loop state of `runEvolutionCycle`.  `snapshot` models the object
`cycle.population` aliases: it is the population current at cycle creation,
and the in-place fitness writes of the first generation's evaluation phase
mutate that same object; from the second generation on `currentPopulation`
is a fresh object and the snapshot is no longer affected. -/
structure LoopState where
  curPop : Population
  snapshot : Population
  results : CycleResults
  k : Nat
  idGen : Nat
  mutCount : Nat

/-- One iteration of the generation loop (lines 239-272): Evaluation →
Selection → Crossover → Mutation → Replacement → result update. -/
def runGeneration (cfg : EvolutionConfig) (env : Env) (genIdx : Nat)
    (ls : LoopState) : Except JsError LoopState :=
  let evaluated := evaluatePopulation env ls.curPop
  let snapshot := if genIdx = 0 then evaluated else ls.snapshot
  match selectParents cfg env ls.k evaluated with
  | .error e => .error e
  | .ok (parents, k1) =>
    let (offspring, idGen1) := performCrossover ls.idGen parents
    let (mutatedOffspring, k2, idGen2, attempts) :=
      performMutation cfg env.rng offspring k1 idGen1
    let newPop := replacePopulation cfg env.math env.rng k2 env.now
      evaluated mutatedOffspring idGen2
    let k3 := k2 + 6 * newPop.agents.length
    let (results1, k4) := updateCycleResults env.rng k3 ls.results
      snapshot.agents.length
    .ok { curPop := newPop
          snapshot := snapshot
          results := results1
          k := k4
          idGen := idGen2 + 1
          mutCount := ls.mutCount + attempts }

/-- The generation loop: run up to the requested number of generations,
breaking early when `hasConverged` fires (evaluated against the history as
of cycle start, which the loop never modifies). -/
def runGenerations (cfg : EvolutionConfig) (env : Env)
    (history : EvolutionHistory) :
    Nat → Nat → LoopState → Except JsError LoopState
  | 0, _, ls => .ok ls
  | n + 1, genIdx, ls =>
    match runGeneration cfg env genIdx ls with
    | .error e => .error e
    | .ok ls1 =>
      if hasConverged cfg history then .ok ls1
      else runGenerations cfg env history n (genIdx + 1) ls1

/-- Zero-initialized CycleResults, as `runEvolutionCycle` creates them. -/
def initialResults : CycleResults :=
  { improved := 0, degraded := 0, unchanged := 0, failed := 0
    averageFitnessChange := 0 }

/-- `runEvolutionCycle` (lines 215-285): create the cycle record
(`generation = totalGenerations + 1`), run the generation loop, then stamp
`phase = Completed` and `endTime`.  On a phase exception the error
propagates (the cycle record is discarded with it). -/
def runEvolutionCycle (cfg : EvolutionConfig) (env : Env) (s : EngineState)
    (maxGenerations : Nat) : Except JsError (EvolutionCycle × LoopState) :=
  let cycleId := s.idGen
  let ls0 : LoopState :=
    { curPop := s.currentPopulation
      snapshot := s.currentPopulation
      results := initialResults
      k := 0
      idGen := s.idGen + 1
      mutCount := 0 }
  match runGenerations cfg env s.history maxGenerations 0 ls0 with
  | .error e => .error e
  | .ok ls =>
    .ok ({ id := cycleId
           generation := s.history.totalGenerations + 1
           startTime := env.now
           endTime := some env.now
           phase := .completed
           population := ls.snapshot
           mutations := []
           results := ls.results },
         ls)

/-- Errors `evolve` can surface: the re-entrancy guard, or a JavaScript
exception escaping a phase. -/
inductive EvolveError where
  | alreadyRunning
  | cycleError (e : JsError)
deriving DecidableEq

/-- `evolve` (lines 100-142).  The guard throws `AlreadyRunning` before any
state is touched, so a rejected call leaves the engine exactly as it was
(in particular the in-flight cycle keeps running).  On success the cycle is
appended to the history and `totalGenerations` grows by the *requested*
generation count, whether or not the loop broke early. -/
def evolve (cfg : EvolutionConfig) (env : Env) (s : EngineState)
    (generations : Nat) : Except EvolveError (EvolutionCycle × EngineState) :=
  if s.isRunning then .error .alreadyRunning
  else
    match runEvolutionCycle cfg env s generations with
    | .error e => .error (.cycleError e)
    | .ok (cycle, ls) =>
      .ok (cycle,
        { isRunning := false
          currentPopulation := ls.curPop
          history :=
            { cycles := s.history.cycles ++ [cycle]
              totalGenerations := s.history.totalGenerations + generations
              totalMutations := s.history.totalMutations + ls.mutCount
              successfulMutations :=
                s.history.successfulMutations + ls.mutCount }
          idGen := ls.idGen })

end EvolutionEngine

/-! Section: ArchiveManager (src/unnamed/part_005) -/

/-- SortCriteria enum from shared/types/Archive.ts.  `sortEntries` handles
the four fitness/date orders; the generation orders fall to its `default`
branch, which leaves the list unsorted. -/
inductive SortCriteria where
  | fitnessDesc
  | fitnessAsc
  | dateDesc
  | dateAsc
  | generationDesc
  | generationAsc
deriving DecidableEq

/-- An archive entry, with `agentSnapshot` reduced to the fields the
embedded archive paths consult (the snapshot's agent type, used by the
type index). -/
structure ArchiveEntry where
  id : Nat
  snapshotType : AgentType
  fitnessMetrics : FitnessScore
  timestamp : Nat
  tags : List String
deriving DecidableEq

/-- The secondary indices `search` consults.  A missing key yields `[]`
(the `|| []` in the source), so the index is a total function. -/
structure ArchiveIndexModel where
  byAgentType : AgentType → List Nat

/-- The archive store: `entries` is the `Map` in its iteration order
(insertion order), plus the index. -/
structure ArchiveState where
  entries : List ArchiveEntry
  index : ArchiveIndexModel

/-- ArchiveQuery from shared/types/Archive.ts (the `parentId` filter is
declared there but `search` never reads it). -/
structure ArchiveQuery where
  agentType : Option AgentType := none
  minFitness : Option ℚ := none
  maxFitness : Option ℚ := none
  tags : Option (List String) := none
  dateRange : Option (Nat × Nat) := none
  limit : Option Nat := none
  offset : Option Nat := none
  sortBy : Option SortCriteria := none
deriving DecidableEq

/-- ArchiveSearchResult from shared/types/Archive.ts. -/
structure ArchiveSearchResult where
  entries : List ArchiveEntry
  totalCount : Nat
  hasMore : Bool
  query : ArchiveQuery
deriving DecidableEq

namespace ArchiveManager

/-- `sortEntries` (part_005 lines 452-465) with the parameter default
`'fitness-desc'` applied when the query leaves `sortBy` undefined; the
generation criteria hit the `default` branch and return the list as is.
JavaScript's stable sort is modelled by `List.insertionSort` as above. -/
def sortEntries (entries : List ArchiveEntry) (sortBy : Option SortCriteria) :
    List ArchiveEntry :=
  match sortBy.getD .fitnessDesc with
  | .fitnessAsc => entries.insertionSort
      (fun a b => a.fitnessMetrics.overall ≤ b.fitnessMetrics.overall)
  | .fitnessDesc => entries.insertionSort
      (fun a b => b.fitnessMetrics.overall ≤ a.fitnessMetrics.overall)
  | .dateAsc => entries.insertionSort (fun a b => a.timestamp ≤ b.timestamp)
  | .dateDesc => entries.insertionSort (fun a b => b.timestamp ≤ a.timestamp)
  | _ => entries

/-- `search` (part_005 lines 351-396): filter in declaration order
(agent type via the index, inclusive fitness bounds, any-of tags, inclusive
date range), sort, then paginate.  `query.offset || 0` and
`query.limit || 50` are JavaScript falsy defaults, so an explicit limit of
0 also becomes 50. -/
def search (archive : ArchiveState) (query : ArchiveQuery) :
    ArchiveSearchResult :=
  let entries := archive.entries
  let entries := match query.agentType with
    | some ty => entries.filter
        (fun e => (archive.index.byAgentType ty).contains e.id)
    | none => entries
  let entries := match query.minFitness with
    | some lo => entries.filter (fun e => lo ≤ e.fitnessMetrics.overall)
    | none => entries
  let entries := match query.maxFitness with
    | some hi => entries.filter (fun e => e.fitnessMetrics.overall ≤ hi)
    | none => entries
  let entries := match query.tags with
    | some ts =>
      if 0 < ts.length then
        entries.filter (fun e => ts.any (fun tag => e.tags.contains tag))
      else entries
    | none => entries
  let entries := match query.dateRange with
    | some range => entries.filter
        (fun e => range.1 ≤ e.timestamp ∧ e.timestamp ≤ range.2)
    | none => entries
  let entries := sortEntries entries query.sortBy
  let totalCount := entries.length
  let offset := query.offset.getD 0
  let limit := match query.limit with
    | none => 50
    | some 0 => 50
    | some l => l
  { entries := (entries.drop offset).take limit
    totalCount := totalCount
    hasMore := offset + limit < totalCount
    query := query }

end ArchiveManager

/-! Section: Concrete fixtures used by counterexamples and witnesses -/

/-- Plain agent constructor for fixtures. -/
def mkAgent (i : Nat) (ty : AgentType) (caps : List Capability)
    (gen : Nat) : Agent :=
  { id := i
    type := ty
    version := ⟨1, 0, 0⟩
    capabilities := caps
    metadata :=
      { createdAt := 0, updatedAt := 0, parentId := none, generation := gen
        mutationHistory := [], tags := [] } }

/-- Population member with a flat fitness score. -/
def mkMember (i : Nat) (overall : ℚ) : PopulationAgent :=
  { agent := mkAgent i .testing [] 0
    fitness :=
      { overall := overall
        components :=
          { codeQuality := overall, performance := overall
            reliability := overall, userSatisfaction := overall
            resourceEfficiency := overall }
        timestamp := 0 }
    age := 0
    isElite := false }

/-- Zero-valued statistics record for fixture populations. -/
def zeroStats : PopulationStatistics :=
  { size := 0, averageFitness := 0, bestFitness := 0, worstFitness := 0
    diversity := 0, convergence := 0, mutationSuccessRate := 0 }

/-- Fixture population over the given members. -/
def mkPopulation (members : List PopulationAgent) : Population :=
  { id := 0, generation := 0, agents := members, statistics := zeroStats
    timestamp := 0 }

/-- Concrete math oracle (returns 0 everywhere); the statistics fields it
feeds are never read by any embedded control flow. -/
def zeroMath : JsMath := ⟨fun _ => 0, fun _ => 0⟩

/-- Concrete random stream: constantly 0. -/
def rngZero : Nat → ℚ := fun _ => 0

/-- Concrete random stream: constantly 0.9. -/
def rngHigh : Nat → ℚ := fun _ => 9/10

/-- Concrete random stream: constantly 0.75. -/
def rngThreeQuarters : Nat → ℚ := fun _ => 3/4

/-- Identity shuffle oracle (a legal implementation-defined permutation). -/
def shuffleId : SelectionStrategy.Shuffle := fun _ l => l

/-! Section: C7 — evaluate never fails; minimal fitness on total failure -/

/-- C7: `FitnessEvaluator.evaluate` is a total function of the
component-evaluation outcome (the catch in part_003 lines 59-93 means no
exception escapes), and when the component evaluation fails entirely it
returns the minimal clearly-flagged score with `overall = 0.1` and all
five components `0.1`. -/
theorem evaluate_total_minimal_on_failure (e : EvalError) (t : Nat) :
    FitnessEvaluator.evaluate (.error e) t =
      FitnessEvaluator.createMinimalFitness t ∧
    (FitnessEvaluator.createMinimalFitness t).overall = 1/10 ∧
    (FitnessEvaluator.createMinimalFitness t).components =
      { codeQuality := 1/10, performance := 1/10, reliability := 1/10
        userSatisfaction := 1/10, resourceEfficiency := 1/10 } := by
  exact ⟨rfl, rfl, rfl⟩

/-! Section: C3 — FitnessScore invariants -/

/-- C3 counterexample: the randomized initial fitness of
`PopulationManager.createInitialFitness` (part_004 lines 250-265) violates
the claimed invariant `overall = Σ weight_i · component_i`.  With every
draw equal to 0.9, the overall is 0.66 while every component is 0.74, so
the weighted sum is 0.74 — off by 0.08, far beyond floating-point
tolerance. -/
theorem initial_fitness_not_weighted_sum :
    FitnessEvaluator.calculateOverallFitness
        (PopulationManager.createInitialFitness rngHigh 0 0).components ≠
      (PopulationManager.createInitialFitness rngHigh 0 0).overall := by
  with_unfolding_all decide

/-- C3 amended: evaluator-produced scores do satisfy the invariant — the
overall of `evaluate` on successful components is exactly the fixed
weighted sum (weights 0.25/0.20/0.25/0.15/0.15) and lies in [0,1] whenever
the components do; the randomized initial fitness instead only guarantees
`overall ∈ [0.3, 0.7)` (components jittered ±0.1 around it), without the
weighted-sum identity. -/
theorem fitness_invariants_amended (comps : FitnessComponents) (t : Nat)
    (r : Nat → ℚ) (k : Nat)
    (h1 : 0 ≤ comps.codeQuality ∧ comps.codeQuality ≤ 1)
    (h2 : 0 ≤ comps.performance ∧ comps.performance ≤ 1)
    (h3 : 0 ≤ comps.reliability ∧ comps.reliability ≤ 1)
    (h4 : 0 ≤ comps.userSatisfaction ∧ comps.userSatisfaction ≤ 1)
    (h5 : 0 ≤ comps.resourceEfficiency ∧ comps.resourceEfficiency ≤ 1)
    (hr0 : 0 ≤ r k) (hr1 : r k < 1) :
    (FitnessEvaluator.evaluate (.ok comps) t).overall =
      comps.codeQuality * (25/100) + comps.performance * (20/100) +
      comps.reliability * (25/100) + comps.userSatisfaction * (15/100) +
      comps.resourceEfficiency * (15/100) ∧
    0 ≤ (FitnessEvaluator.evaluate (.ok comps) t).overall ∧
    (FitnessEvaluator.evaluate (.ok comps) t).overall ≤ 1 ∧
    3/10 ≤ (PopulationManager.createInitialFitness r k t).overall ∧
    (PopulationManager.createInitialFitness r k t).overall < 7/10 := by
  obtain ⟨h1a, h1b⟩ := h1
  obtain ⟨h2a, h2b⟩ := h2
  obtain ⟨h3a, h3b⟩ := h3
  obtain ⟨h4a, h4b⟩ := h4
  obtain ⟨h5a, h5b⟩ := h5
  refine ⟨rfl, ?_, ?_, ?_, ?_⟩ <;>
    simp only [FitnessEvaluator.evaluate,
      FitnessEvaluator.calculateOverallFitness, FitnessEvaluator.weights,
      PopulationManager.createInitialFitness] <;>
    linarith

/-- C3 amended witness at concrete inputs. -/
theorem fitness_invariants_amended_witness :
    (FitnessEvaluator.evaluate
        (.ok { codeQuality := 1/2, performance := 1/2, reliability := 1/2
               userSatisfaction := 1/2, resourceEfficiency := 1/2 }) 0).overall =
      (1:ℚ)/2 * (25/100) + 1/2 * (20/100) + 1/2 * (25/100) +
        1/2 * (15/100) + 1/2 * (15/100) ∧
    0 ≤ (FitnessEvaluator.evaluate
        (.ok { codeQuality := 1/2, performance := 1/2, reliability := 1/2
               userSatisfaction := 1/2, resourceEfficiency := 1/2 }) 0).overall ∧
    (FitnessEvaluator.evaluate
        (.ok { codeQuality := 1/2, performance := 1/2, reliability := 1/2
               userSatisfaction := 1/2, resourceEfficiency := 1/2 }) 0).overall ≤ 1 ∧
    3/10 ≤ (PopulationManager.createInitialFitness rngZero 0 0).overall ∧
    (PopulationManager.createInitialFitness rngZero 0 0).overall < 7/10 :=
  fitness_invariants_amended
    { codeQuality := 1/2, performance := 1/2, reliability := 1/2
      userSatisfaction := 1/2, resourceEfficiency := 1/2 } 0 rngZero 0
    (by norm_num) (by norm_num) (by norm_num) (by norm_num) (by norm_num)
    (by norm_num [rngZero]) (by norm_num [rngZero])

/-! Section: Helper lemmas about createPopulation -/

/-- The agents wrapped by `createPopulation` are exactly the agents given
to it, in order. -/
theorem createPopulation_map_agent (m : JsMath) (r : Nat → ℚ) (k t : Nat)
    (agents : List Agent) (g popId : Nat) :
    (PopulationManager.createPopulation m r k t agents g popId).agents.map
      (fun pa => pa.agent) = agents := by
  simp only [PopulationManager.createPopulation]
  rw [List.map_map]
  exact List.enum_map_snd agents

/-- Every member of a `createPopulation` result carries the freshly
randomized initial fitness for its position. -/
theorem createPopulation_map_fitness (m : JsMath) (r : Nat → ℚ) (k t : Nat)
    (agents : List Agent) (g popId : Nat) :
    (PopulationManager.createPopulation m r k t agents g popId).agents.map
      (fun pa => pa.fitness) =
      (List.range agents.length).map
        (fun i => PopulationManager.createInitialFitness r (k + 6 * i) t) := by
  simp only [PopulationManager.createPopulation]
  rw [List.map_map, ← List.enum_map_fst agents, List.map_map]
  rfl

/-- `createPopulation` produces one member per given agent. -/
theorem createPopulation_length (m : JsMath) (r : Nat → ℚ) (k t : Nat)
    (agents : List Agent) (g popId : Nat) :
    (PopulationManager.createPopulation m r k t agents g popId).agents.length =
      agents.length := by
  simp [PopulationManager.createPopulation]

/-! Section: C1 — replacement population size -/

/-- Fixture config: target size 5, no elitism. -/
def cfgSize5 : EvolutionConfig :=
  { populationSize := 5, mutationRate := 0, crossoverRate := 0
    elitismRate := 0, selectionStrategy := .rank, convergenceThreshold := 0 }

/-- C1 counterexample: `replacePopulation` truncates the combined
elite-plus-offspring list to `populationSize` but never pads it.  With a
one-member current population, elitism rate 0 and no offspring, the
produced population has 0 members, not the configured 5. -/
theorem replacement_size_counterexample :
    (EvolutionEngine.replacePopulation cfgSize5 zeroMath rngZero 0 0
        (mkPopulation [mkMember 1 (1/2)]) [] 0).agents.length ≠
      cfgSize5.populationSize := by
  with_unfolding_all decide

/-- Helper: `Math.floor(n * rate)` never exceeds `n` once the rate is at
most 1. -/
theorem jsFloorNat_mul_le (n : Nat) (rate : ℚ) (h : rate ≤ 1) :
    jsFloorNat ((n : ℚ) * rate) ≤ n := by
  unfold jsFloorNat jsFloor
  have h1 : (n : ℚ) * rate ≤ (n : ℚ) :=
    mul_le_of_le_one_right (by positivity) h
  have h2 : ⌊(n : ℚ) * rate⌋ ≤ ⌊(n : ℚ)⌋ := Int.floor_le_floor h1
  have h3 : ⌊(n : ℚ)⌋ = n := Int.floor_natCast n
  omega

/-- C1 amended: the population produced by Replacement has exactly
`min(eliteCount + offspringCount, populationSize)` members — the combined
list is truncated to the target size but, when it falls short, nothing
pads it back up to `populationSize`. -/
theorem replacement_size_amended (cfg : EvolutionConfig) (m : JsMath)
    (r : Nat → ℚ) (k t : Nat) (pop : Population) (newAgents : List Agent)
    (popId : Nat) :
    (EvolutionEngine.replacePopulation cfg m r k t pop newAgents
        popId).agents.length =
      min (min (jsFloorNat ((pop.agents.length : ℚ) * cfg.elitismRate))
            pop.agents.length + newAgents.length)
          cfg.populationSize := by
  simp [EvolutionEngine.replacePopulation, PopulationManager.createPopulation,
    SelectionStrategy.sortByFitnessDesc, List.length_take,
    List.length_insertionSort]
  omega

/-! Section: C2 — elite carry-over -/

/-- Fixture config: target size 1, elitism rate 1. -/
def cfgElite1 : EvolutionConfig :=
  { populationSize := 1, mutationRate := 0, crossoverRate := 0
    elitismRate := 1, selectionStrategy := .rank, convergenceThreshold := 0 }

/-- C2 counterexample: the elite of a one-member population (agent id 7,
fitness 0.9, elitism rate 1) reappears in the next generation with the
same id but with a freshly randomized fitness of 0.3 —
`createPopulation` re-assigns `createInitialFitness()` to every member, so
the elite is not carried over with the fitness it had. -/
theorem elitism_fitness_counterexample :
    ((EvolutionEngine.replacePopulation cfgElite1 zeroMath rngZero 0 0
        (mkPopulation [mkMember 7 (9/10)]) [] 0).agents.map
        (fun pa => (pa.agent.id, pa.fitness.overall))) = [(7, 3/10)] ∧
    ((mkPopulation [mkMember 7 (9/10)]).agents.map
        (fun pa => (pa.agent.id, pa.fitness.overall))) = [(7, 9/10)] ∧
    (3/10 : ℚ) ≠ 9/10 := by
  with_unfolding_all decide

/-- C2 amended: the elite agents (the first
`floor(size × elitismRate)` of the stable descending fitness sort — ties
are broken by position in the current population, not by agent id) do
reappear, in order, at the head of the next generation whenever the elite
count fits the target size, keeping their ids; but every member of the new
population, elites included, is assigned a fresh randomized initial
fitness (member `i` consuming the six stream draws starting at `k + 6i`),
so the generation-N fitness values are not preserved. -/
theorem elitism_amended (cfg : EvolutionConfig) (m : JsMath) (r : Nat → ℚ)
    (k t : Nat) (pop : Population) (newAgents : List Agent) (popId : Nat)
    (hrate : cfg.elitismRate ≤ 1)
    (hec : jsFloorNat ((pop.agents.length : ℚ) * cfg.elitismRate) ≤
      cfg.populationSize) :
    ((EvolutionEngine.replacePopulation cfg m r k t pop newAgents
        popId).agents.map (fun pa => pa.agent)).take
        (jsFloorNat ((pop.agents.length : ℚ) * cfg.elitismRate)) =
      ((SelectionStrategy.sortByFitnessDesc pop.agents).take
        (jsFloorNat ((pop.agents.length : ℚ) * cfg.elitismRate))).map
        (fun pa => pa.agent) ∧
    (EvolutionEngine.replacePopulation cfg m r k t pop newAgents
        popId).agents.map (fun pa => pa.fitness) =
      (List.range (EvolutionEngine.replacePopulation cfg m r k t pop
          newAgents popId).agents.length).map
        (fun i => PopulationManager.createInitialFitness r (k + 6 * i) t) := by
  have hle : jsFloorNat ((pop.agents.length : ℚ) * cfg.elitismRate) ≤
      pop.agents.length := jsFloorNat_mul_le _ _ hrate
  have hlen : (((SelectionStrategy.sortByFitnessDesc pop.agents).take
      (jsFloorNat ((pop.agents.length : ℚ) * cfg.elitismRate))).map
      (fun pa => pa.agent)).length =
      jsFloorNat ((pop.agents.length : ℚ) * cfg.elitismRate) := by
    simp [SelectionStrategy.sortByFitnessDesc, List.length_take,
      List.length_insertionSort]
    omega
  constructor
  · rw [show EvolutionEngine.replacePopulation cfg m r k t pop newAgents
        popId = PopulationManager.createPopulation m r k t
          (((((SelectionStrategy.sortByFitnessDesc pop.agents).take
            (jsFloorNat ((pop.agents.length : ℚ) * cfg.elitismRate))).map
            (fun a => a.agent)) ++ newAgents).take cfg.populationSize)
          (pop.generation + 1) popId from rfl]
    rw [createPopulation_map_agent, List.take_take,
      Nat.min_eq_left hec, List.take_append_eq_append_take]
    rw [List.take_of_length_le (by rw [hlen]),
      show jsFloorNat ((pop.agents.length : ℚ) * cfg.elitismRate) -
        (((SelectionStrategy.sortByFitnessDesc pop.agents).take
          (jsFloorNat ((pop.agents.length : ℚ) * cfg.elitismRate))).map
          (fun a => a.agent)).length = 0 from by rw [hlen]; omega,
      List.take_zero, List.append_nil]
  · rw [show EvolutionEngine.replacePopulation cfg m r k t pop newAgents
        popId = PopulationManager.createPopulation m r k t
          (((((SelectionStrategy.sortByFitnessDesc pop.agents).take
            (jsFloorNat ((pop.agents.length : ℚ) * cfg.elitismRate))).map
            (fun a => a.agent)) ++ newAgents).take cfg.populationSize)
          (pop.generation + 1) popId from rfl]
    rw [createPopulation_map_fitness, createPopulation_length]

/-- Fixture population (ids 1 and 2, fitness 0.9 and 0.1) for the C2
witness. -/
def popW2 : Population := mkPopulation [mkMember 1 (9/10), mkMember 2 (1/10)]

/-- Fixture config with elitism rate 0.5 and target size 2. -/
def cfgElitismHalf : EvolutionConfig :=
  { populationSize := 2, mutationRate := 0, crossoverRate := 0
    elitismRate := 1/2, selectionStrategy := .rank, convergenceThreshold := 0 }

/-- Fixture offspring list for the C2 witness. -/
def newAgentsW : List Agent := [mkAgent 5 .testing [] 0]

/-- C2 amended witness at concrete inputs. -/
theorem elitism_amended_witness :
    cfgElitismHalf.elitismRate ≤ 1 ∧
    jsFloorNat ((popW2.agents.length : ℚ) * cfgElitismHalf.elitismRate) ≤
      cfgElitismHalf.populationSize ∧
    ((((EvolutionEngine.replacePopulation cfgElitismHalf zeroMath rngZero 0 0
        popW2 newAgentsW 0).agents.map (fun pa => pa.agent)).take
        (jsFloorNat ((popW2.agents.length : ℚ) * cfgElitismHalf.elitismRate)) =
      ((SelectionStrategy.sortByFitnessDesc popW2.agents).take
        (jsFloorNat ((popW2.agents.length : ℚ) *
          cfgElitismHalf.elitismRate))).map (fun pa => pa.agent)) ∧
     (EvolutionEngine.replacePopulation cfgElitismHalf zeroMath rngZero 0 0
        popW2 newAgentsW 0).agents.map (fun pa => pa.fitness) =
      (List.range (EvolutionEngine.replacePopulation cfgElitismHalf zeroMath
          rngZero 0 0 popW2 newAgentsW 0).agents.length).map
        (fun i => PopulationManager.createInitialFitness rngZero (0 + 6 * i) 0)) :=
  ⟨by norm_num [cfgElitismHalf],
   by with_unfolding_all decide,
   elitism_amended cfgElitismHalf zeroMath rngZero 0 0 popW2 newAgentsW 0
     (by norm_num [cfgElitismHalf]) (by with_unfolding_all decide)⟩

/-! Section: C8 — crossover children -/

/-- Fixture parent with a single capability. -/
def agentOneCap : Agent := mkAgent 1 .testing [⟨0⟩] 3

/-- Fixture parent with no capabilities. -/
def agentNoCap : Agent := mkAgent 2 .codeGeneration [] 5

/-- C8 counterexample: when the other parent has no capabilities,
`capabilities.slice(0, 1)` is empty and nothing is borrowed — each child of
`crossover(agentOneCap, agentNoCap)` ends up with exactly
`agentOneCap.capabilities`, so the first child has no capability appended
to its primary parent's list, contradicting the claimed `exactly one
capability borrowed ... appended`. -/
theorem crossover_borrow_counterexample :
    ((CrossoverOperator.crossover 100 agentOneCap agentNoCap).1.map
        (fun c => c.capabilities)) =
      [agentOneCap.capabilities, agentOneCap.capabilities] ∧
    agentNoCap.capabilities = [] := by
  with_unfolding_all decide

/-- C8 amended: crossover returns exactly two children; each child is
primarily derived from one parent with *at most* one capability borrowed
from the other parent appended (exactly one when the other parent has any:
the borrowed part is `other.capabilities.take 1`); each child's generation
is the max of the parents' generations plus one, its `parentId` points to
its primary parent, its version resets to the baseline 1.0.0, and the two
child ids are the next two values of the fresh-id source — distinct from
each other and, provided the parents' ids were issued earlier, from both
parents' ids. -/
theorem crossover_amended (idGen : Nat) (p1 p2 : Agent)
    (h1 : p1.id < idGen) (h2 : p2.id < idGen) :
    (CrossoverOperator.crossover idGen p1 p2).1.length = 2 ∧
    (CrossoverOperator.crossover idGen p1 p2).1.map
        (fun c => c.capabilities) =
      [p1.capabilities ++ p2.capabilities.take 1,
       p2.capabilities ++ p1.capabilities.take 1] ∧
    (CrossoverOperator.crossover idGen p1 p2).1.map
        (fun c => c.metadata.generation) =
      [max p1.metadata.generation p2.metadata.generation + 1,
       max p1.metadata.generation p2.metadata.generation + 1] ∧
    (CrossoverOperator.crossover idGen p1 p2).1.map
        (fun c => c.metadata.parentId) = [some p1.id, some p2.id] ∧
    (CrossoverOperator.crossover idGen p1 p2).1.map (fun c => c.version) =
      [⟨1, 0, 0⟩, ⟨1, 0, 0⟩] ∧
    (CrossoverOperator.crossover idGen p1 p2).1.map (fun c => c.id) =
      [idGen, idGen + 1] ∧
    (∀ c ∈ (CrossoverOperator.crossover idGen p1 p2).1,
      c.id ≠ p1.id ∧ c.id ≠ p2.id) ∧
    ((CrossoverOperator.crossover idGen p1 p2).1.map (fun c => c.id)).Nodup ∧
    (CrossoverOperator.crossover idGen p1 p2).2 = idGen + 2 := by
  refine ⟨rfl, rfl, ?_, rfl, rfl, rfl, ?_, ?_, rfl⟩
  · simp [CrossoverOperator.crossover, CrossoverOperator.createChild,
      Nat.max_comm]
  · intro c hc
    simp only [CrossoverOperator.crossover, CrossoverOperator.createChild,
      List.mem_cons, List.not_mem_nil, or_false] at hc
    rcases hc with hc | hc <;> subst hc <;> constructor <;> simp <;> omega
  · simp only [CrossoverOperator.crossover, CrossoverOperator.createChild]
    simp

/-- C8 amended witness at concrete inputs. -/
theorem crossover_amended_witness :
    agentOneCap.id < 100 ∧ agentNoCap.id < 100 ∧
    ((CrossoverOperator.crossover 100 agentOneCap agentNoCap).1.length = 2 ∧
     (CrossoverOperator.crossover 100 agentOneCap agentNoCap).1.map
         (fun c => c.capabilities) =
       [agentOneCap.capabilities ++ agentNoCap.capabilities.take 1,
        agentNoCap.capabilities ++ agentOneCap.capabilities.take 1] ∧
     (CrossoverOperator.crossover 100 agentOneCap agentNoCap).1.map
         (fun c => c.metadata.generation) =
       [max agentOneCap.metadata.generation agentNoCap.metadata.generation + 1,
        max agentOneCap.metadata.generation agentNoCap.metadata.generation + 1] ∧
     (CrossoverOperator.crossover 100 agentOneCap agentNoCap).1.map
         (fun c => c.metadata.parentId) =
       [some agentOneCap.id, some agentNoCap.id] ∧
     (CrossoverOperator.crossover 100 agentOneCap agentNoCap).1.map
         (fun c => c.version) = [⟨1, 0, 0⟩, ⟨1, 0, 0⟩] ∧
     (CrossoverOperator.crossover 100 agentOneCap agentNoCap).1.map
         (fun c => c.id) = [100, 100 + 1] ∧
     (∀ c ∈ (CrossoverOperator.crossover 100 agentOneCap agentNoCap).1,
       c.id ≠ agentOneCap.id ∧ c.id ≠ agentNoCap.id) ∧
     ((CrossoverOperator.crossover 100 agentOneCap agentNoCap).1.map
         (fun c => c.id)).Nodup ∧
     (CrossoverOperator.crossover 100 agentOneCap agentNoCap).2 = 100 + 2) :=
  ⟨by decide, by decide,
   crossover_amended 100 agentOneCap agentNoCap (by decide) (by decide)⟩

/-! Section: C6 — roulette wheel with zero total fitness -/

/-- Modelled from the spec: the fallback the spec prescribes for
roulette-wheel selection when total fitness is 0 — `uniform random choice`
over the population, i.e. each of the `count` draws picks the member at
index `floor(random · length)`.  No such fallback exists in
SelectionStrategy.ts; this definition follows the spec's words and is
compared against the embedded `rouletteWheelSelection`. -/
def uniformChoiceSpec (r : Nat → ℚ) (k : Nat)
    (agents : List PopulationAgent) (count : Nat) : List Agent :=
  (List.range count).filterMap (fun i =>
    (agents[jsFloorNat (r (k + i) * (agents.length : ℚ))]?).map
      (fun pa => pa.agent))

/-- C6 counterexample: on a two-member zero-fitness population with the
random draw 0.75, the embedded roulette wheel selects the *first* member
(the walk hits `randomValue ≤ 0` immediately because every subtraction is
zero), whereas the spec's uniform fallback would select the second member
(`floor(0.75 · 2) = 1`).  The choice is not uniform — it is independent of
the draw. -/
theorem roulette_zero_total_counterexample :
    (SelectionStrategy.rouletteWheelSelection rngThreeQuarters 0
        [mkMember 0 0, mkMember 1 0] 1).1 = [(mkMember 0 0).agent] ∧
    uniformChoiceSpec rngThreeQuarters 0 [mkMember 0 0, mkMember 1 0] 1 =
      [(mkMember 1 0).agent] ∧
    (mkMember 0 0).agent ≠ (mkMember 1 0).agent := by
  with_unfolding_all decide

/-- Helper: folding addition over a list of zeros leaves the accumulator
unchanged. -/
theorem foldl_add_all_zero (l : List ℚ) (h : ∀ x ∈ l, x = 0) :
    ∀ c : ℚ, l.foldl (· + ·) c = c := by
  induction l with
  | nil => intro c; rfl
  | cons x xs ih =>
    intro c
    have hx : x = 0 := h x (by simp)
    rw [List.foldl_cons, hx, add_zero]
    exact ih (fun y hy => h y (by simp [hy])) c

/-- Helper: with zero total fitness every roulette draw selects the head of
the population, and each iteration consumes exactly one random value. -/
theorem rouletteLoop_zero_total (r : Nat → ℚ) (a : PopulationAgent)
    (rest : List PopulationAgent) (ha : a.fitness.overall = 0) :
    ∀ count k, SelectionStrategy.rouletteLoop r (a :: rest) 0 count k =
      (List.replicate count a.agent, k + count) := by
  intro count
  induction count with
  | zero => intro k; rfl
  | succ n ih =>
    intro k
    simp only [SelectionStrategy.rouletteLoop, ih (k + 1)]
    simp [SelectionStrategy.rouletteDraw, ha, List.replicate_succ]
    omega

/-- C6 amended: roulette-wheel selection on a non-empty population whose
members all have zero `fitness.overall` terminates (the loop is bounded by
`count`) and returns exactly `count` agents, but every one of them is the
*first* member of the population — the walk subtracts zero and immediately
satisfies `randomValue ≤ 0` — rather than a uniform random choice. -/
theorem roulette_zero_total_amended (r : Nat → ℚ) (k count : Nat)
    (a : PopulationAgent) (rest : List PopulationAgent)
    (hzero : ∀ pa ∈ a :: rest, pa.fitness.overall = 0) :
    SelectionStrategy.rouletteWheelSelection r k (a :: rest) count =
      (List.replicate count a.agent, k + count) := by
  have htot : (((a :: rest).map (fun pa => pa.fitness.overall)).foldl
      (· + ·) 0 : ℚ) = 0 := by
    apply foldl_add_all_zero
    intro x hx
    simp only [List.mem_map] at hx
    obtain ⟨pa, hpa, hx⟩ := hx
    rw [← hx]
    exact hzero pa hpa
  simp only [SelectionStrategy.rouletteWheelSelection, htot]
  exact rouletteLoop_zero_total r a rest (hzero a (by simp)) count k

/-- C6 amended witness at concrete inputs. -/
theorem roulette_zero_total_amended_witness :
    (∀ pa ∈ [mkMember 0 0, mkMember 1 0], pa.fitness.overall = 0) ∧
    SelectionStrategy.rouletteWheelSelection rngZero 0
        [mkMember 0 0, mkMember 1 0] 2 =
      (List.replicate 2 (mkMember 0 0).agent, 0 + 2) :=
  ⟨by with_unfolding_all decide,
   roulette_zero_total_amended rngZero 0 2 (mkMember 0 0) [mkMember 1 0]
     (by with_unfolding_all decide)⟩

/-! Section: C5 — selection result sizes; helper lemmas first -/

/-- Helper: the tournament reduce succeeds on any non-empty tournament. -/
theorem tournamentWinner_ok (l : List PopulationAgent) (h : l ≠ []) :
    ∃ w, SelectionStrategy.tournamentWinner l = .ok w := by
  cases l with
  | nil => exact absurd rfl h
  | cons b rest => exact ⟨_, rfl⟩

/-- Helper: on a non-empty population, with a length-preserving shuffle and
a positive tournament size, the tournament loop succeeds and returns one
winner per iteration. -/
theorem tournamentLoop_ok (shuffle : SelectionStrategy.Shuffle)
    (agents : List PopulationAgent) (tSize : Nat) (hne : agents ≠ [])
    (hts : 0 < tSize)
    (hshuffle : ∀ j l, (shuffle j l).length = l.length) :
    ∀ n k, ∃ res kEnd,
      SelectionStrategy.tournamentLoop shuffle agents tSize n k =
        .ok (res, kEnd) ∧ res.length = n := by
  intro n
  induction n with
  | zero => intro k; exact ⟨[], k, rfl, rfl⟩
  | succ m ih =>
    intro k
    have hpos : 0 < (SelectionStrategy.selectRandomAgents shuffle k agents
        tSize).length := by
      simp only [SelectionStrategy.selectRandomAgents, List.length_take,
        hshuffle]
      have := List.length_pos.mpr hne
      omega
    obtain ⟨w, hw⟩ := tournamentWinner_ok _ (List.length_pos.mp hpos)
    obtain ⟨res, kEnd, hloop, hlen⟩ := ih (k + agents.length)
    refine ⟨w.agent :: res, kEnd, ?_, by simp [hlen]⟩
    simp only [SelectionStrategy.tournamentLoop, hw, hloop]

/-- Helper: tournament selection always succeeds on a non-empty population
and returns exactly `count` agents. -/
theorem tournamentSelection_ok (shuffle : SelectionStrategy.Shuffle)
    (k : Nat) (agents : List PopulationAgent) (count : Nat)
    (hne : agents ≠ [])
    (hshuffle : ∀ j l, (shuffle j l).length = l.length) :
    ∃ res kEnd,
      SelectionStrategy.tournamentSelection shuffle k agents count =
        .ok (res, kEnd) ∧ res.length = count :=
  tournamentLoop_ok shuffle agents _ hne
    (lt_of_lt_of_le (by norm_num) (le_max_left 2 _)) hshuffle count k

/-- Helper: `foldl` of addition equals the accumulator plus the sum. -/
theorem foldl_add_eq_sum (l : List ℚ) : ∀ c : ℚ,
    l.foldl (· + ·) c = c + l.sum := by
  induction l with
  | nil => intro c; simp
  | cons x xs ih =>
    intro c
    rw [List.foldl_cons, ih, List.sum_cons]
    ring

/-- Helper: the roulette walk selects some member whenever the value is
non-negative, the fitness values are non-negative and the value is below
their sum. -/
theorem rouletteDraw_isSome (l : List PopulationAgent) :
    ∀ rv : ℚ, (∀ pa ∈ l, 0 ≤ pa.fitness.overall) → 0 ≤ rv →
    rv < (l.map (fun pa => pa.fitness.overall)).sum →
    ∃ a, SelectionStrategy.rouletteDraw l rv = some a := by
  induction l with
  | nil =>
    intro rv _ h0 hlt
    simp only [List.map_nil, List.sum_nil] at hlt
    linarith
  | cons a rest ih =>
    intro rv hnn h0 hlt
    by_cases hc : rv - a.fitness.overall ≤ 0
    · exact ⟨a.agent, by simp [SelectionStrategy.rouletteDraw, hc]⟩
    · push_neg at hc
      have h0h : (0:ℚ) ≤ rv - a.fitness.overall := le_of_lt hc
      have hlth : rv - a.fitness.overall <
          (rest.map (fun pa => pa.fitness.overall)).sum := by
        rw [List.map_cons, List.sum_cons] at hlt
        linarith
      obtain ⟨x, hx⟩ := ih (rv - a.fitness.overall)
        (fun pa hpa => hnn pa (by simp [hpa])) h0h hlth
      exact ⟨x, by simp [SelectionStrategy.rouletteDraw, not_le.mpr hc, hx]⟩

/-- Helper: on a non-empty population with non-negative fitness values and
a draw in `[0,1)`, the roulette walk over `draw · total` always selects
some member (covering both the zero-total and the positive-total case). -/
theorem rouletteDraw_total_isSome (a : PopulationAgent)
    (rest : List PopulationAgent) (rq : ℚ)
    (hnn : ∀ pa ∈ a :: rest, 0 ≤ pa.fitness.overall)
    (hr0 : 0 ≤ rq) (hr1 : rq < 1) :
    ∃ x, SelectionStrategy.rouletteDraw (a :: rest)
      (rq * ((a :: rest).map (fun pa => pa.fitness.overall)).sum) = some x := by
  have hsum : 0 ≤ ((a :: rest).map (fun pa => pa.fitness.overall)).sum := by
    apply List.sum_nonneg
    intro x hx
    simp only [List.mem_map] at hx
    obtain ⟨pa, hpa, hx⟩ := hx
    rw [← hx]
    exact hnn pa hpa
  rcases eq_or_lt_of_le hsum with hzero | hpos
  · refine ⟨a.agent, ?_⟩
    have ha : 0 ≤ a.fitness.overall := hnn a (by simp)
    simp only [SelectionStrategy.rouletteDraw, ← hzero, mul_zero]
    rw [if_pos (by linarith)]
  · have hlt : rq * ((a :: rest).map (fun pa => pa.fitness.overall)).sum <
        ((a :: rest).map (fun pa => pa.fitness.overall)).sum := by
      have h := mul_lt_mul_of_pos_right hr1 hpos
      rwa [one_mul] at h
    exact rouletteDraw_isSome (a :: rest) _ hnn (mul_nonneg hr0 hsum) hlt

/-- Helper: the roulette loop on a non-empty non-negative population
returns exactly one agent per iteration and consumes one draw per
iteration. -/
theorem rouletteLoop_length (r : Nat → ℚ) (a : PopulationAgent)
    (rest : List PopulationAgent)
    (hnn : ∀ pa ∈ a :: rest, 0 ≤ pa.fitness.overall)
    (hr : ∀ j, 0 ≤ r j ∧ r j < 1) :
    ∀ count k,
      (SelectionStrategy.rouletteLoop r (a :: rest)
        (((a :: rest).map (fun pa => pa.fitness.overall)).foldl (· + ·) 0)
        count k).1.length = count ∧
      (SelectionStrategy.rouletteLoop r (a :: rest)
        (((a :: rest).map (fun pa => pa.fitness.overall)).foldl (· + ·) 0)
        count k).2 = k + count := by
  have htot : (((a :: rest).map (fun pa => pa.fitness.overall)).foldl
      (· + ·) 0 : ℚ) = ((a :: rest).map (fun pa => pa.fitness.overall)).sum := by
    rw [foldl_add_eq_sum, zero_add]
  intro count
  induction count with
  | zero => intro k; exact ⟨rfl, by simp [SelectionStrategy.rouletteLoop]⟩
  | succ m ih =>
    intro k
    obtain ⟨x, hx⟩ := rouletteDraw_total_isSome a rest (r k) hnn
      (hr k).1 (hr k).2
    have hx2 : SelectionStrategy.rouletteDraw (a :: rest)
        (r k * (((a :: rest).map (fun pa => pa.fitness.overall)).foldl
          (· + ·) 0)) = some x := by rw [htot]; exact hx
    obtain ⟨ih1, ih2⟩ := ih (k + 1)
    constructor
    · simp only [SelectionStrategy.rouletteLoop, hx2]
      simpa using ih1
    · simp only [SelectionStrategy.rouletteLoop, hx2]
      simp only [ih2]
      omega

/-- Helper: rank selection returns `min count size` agents. -/
theorem rankSelection_length (agents : List PopulationAgent) (count : Nat) :
    (SelectionStrategy.rankSelection agents count).length =
      min count agents.length := by
  simp [SelectionStrategy.rankSelection, SelectionStrategy.sortByFitnessDesc,
    List.length_take, List.length_insertionSort]

/-- C5 counterexample: requesting more agents than the population holds
does not fail with `InsufficientPopulation` — no such check exists in
`select`.  Rank selection over a one-member population with `count = 2`
returns successfully with a single agent. -/
theorem select_no_insufficient_population_error :
    SelectionStrategy.select .rank shuffleId rngZero 0
        [mkMember 3 (1/2)] 2 = .ok ([(mkMember 3 (1/2)).agent], 0) ∧
    [(mkMember 3 (1/2)).agent].length ≠ 2 := by
  constructor
  · with_unfolding_all rfl
  · decide

/-- C5 amended: `select` never fails with `InsufficientPopulation` (the
error does not exist in the code).  On a non-empty population — with a
length-preserving shuffle, draws in `[0,1)` and non-negative fitness
values — every strategy succeeds: tournament and roulette-wheel return
exactly `count` agents even when `count` exceeds the population size
(sampling with replacement), while rank selection returns
`min(count, size)` agents, silently fewer than requested when
`count > size`. -/
theorem select_length_amended (strategy : SelectionStrategyType)
    (shuffle : SelectionStrategy.Shuffle) (r : Nat → ℚ) (k : Nat)
    (agents : List PopulationAgent) (count : Nat)
    (hne : agents ≠ [])
    (hshuffle : ∀ j l, (shuffle j l).length = l.length)
    (hr : ∀ j, 0 ≤ r j ∧ r j < 1)
    (hnn : ∀ pa ∈ agents, 0 ≤ pa.fitness.overall) :
    ∃ res kEnd,
      SelectionStrategy.select strategy shuffle r k agents count =
        .ok (res, kEnd) ∧
      res.length = (if strategy = .rank then min count agents.length
        else count) := by
  cases agents with
  | nil => exact absurd rfl hne
  | cons a rest =>
    cases strategy with
    | rank =>
      exact ⟨_, k, rfl, by simp [rankSelection_length]⟩
    | rouletteWheel =>
      obtain ⟨h1, h2⟩ := rouletteLoop_length r a rest hnn hr count k
      refine ⟨_, _, rfl, ?_⟩
      simpa [SelectionStrategy.rouletteWheelSelection] using h1
    | tournament =>
      obtain ⟨res, kEnd, hok, hlen⟩ := tournamentSelection_ok shuffle k
        (a :: rest) count hne hshuffle
      exact ⟨res, kEnd, hok, by simp [hlen]⟩
    | truncationSelection =>
      obtain ⟨res, kEnd, hok, hlen⟩ := tournamentSelection_ok shuffle k
        (a :: rest) count hne hshuffle
      exact ⟨res, kEnd, hok, by simp [hlen]⟩
    | stochasticUniversalSampling =>
      obtain ⟨res, kEnd, hok, hlen⟩ := tournamentSelection_ok shuffle k
        (a :: rest) count hne hshuffle
      exact ⟨res, kEnd, hok, by simp [hlen]⟩

/-- C5 amended witness at concrete inputs (tournament strategy, one-member
population, three requested parents). -/
theorem select_length_amended_witness :
    ([mkMember 3 (1/2)] : List PopulationAgent) ≠ [] ∧
    (∀ j l, (shuffleId j l).length = l.length) ∧
    (∀ j, 0 ≤ rngZero j ∧ rngZero j < 1) ∧
    (∀ pa ∈ [mkMember 3 (1/2)], 0 ≤ pa.fitness.overall) ∧
    (∃ res kEnd,
      SelectionStrategy.select .tournament shuffleId rngZero 0
          [mkMember 3 (1/2)] 3 = .ok (res, kEnd) ∧
      res.length = (if SelectionStrategyType.tournament = .rank then
        min 3 ([mkMember 3 (1/2)] : List PopulationAgent).length else 3)) :=
  ⟨by simp,
   fun j l => rfl,
   fun j => ⟨le_refl 0, by norm_num [rngZero]⟩,
   by with_unfolding_all decide,
   select_length_amended .tournament shuffleId rngZero 0 [mkMember 3 (1/2)] 3
     (by simp) (fun j l => rfl)
     (fun j => ⟨le_refl 0, by norm_num [rngZero]⟩)
     (by with_unfolding_all decide)⟩

/-! Section: C9 — archive fitness-range search -/

/-- Fixture archive entry: id `i`, overall fitness 0.5, timestamp `i`. -/
def entryAt (i : Nat) : ArchiveEntry :=
  { id := i
    snapshotType := .testing
    fitnessMetrics :=
      { overall := 1/2
        components :=
          { codeQuality := 1/2, performance := 1/2, reliability := 1/2
            userSatisfaction := 1/2, resourceEfficiency := 1/2 }
        timestamp := 0 }
    timestamp := i
    tags := [] }

/-- Fixture archive holding 51 entries, all with overall fitness 0.5. -/
def archive51 : ArchiveState :=
  { entries := (List.range 51).map entryAt, index := ⟨fun _ => []⟩ }

/-- Fitness-range query `[0, 1]` with no other filters, no explicit sort
order, offset or limit. -/
def queryFullRange : ArchiveQuery := { minFitness := some 0, maxFitness := some 1 }

/-- C9 counterexample: all 51 stored entries satisfy the fitness range
`[0, 1]` (the brute-force filter keeps all 51, and `totalCount` reports
51), yet `search` returns only 50 of them — with no explicit limit the
falsy-default pagination `query.limit || 50` truncates the result, so the
returned entries are not the full matched set. -/
theorem search_fitness_range_counterexample :
    (ArchiveManager.search archive51 queryFullRange).totalCount = 51 ∧
    (archive51.entries.filter (fun e => (0:ℚ) ≤ e.fitnessMetrics.overall ∧
      e.fitnessMetrics.overall ≤ 1)).length = 51 ∧
    (ArchiveManager.search archive51 queryFullRange).entries.length = 50 := by
  refine ⟨?_, ?_, ?_⟩ <;> with_unfolding_all decide

/-- Query with only a fitness range and an optional sort order. -/
def fitnessRangeQuery (lo hi : ℚ) (sortBy : Option SortCriteria) :
    ArchiveQuery :=
  { minFitness := some lo, maxFitness := some hi, sortBy := sortBy }

/-- Helper: every branch of `sortEntries` permutes its input. -/
theorem sortEntries_perm (l : List ArchiveEntry)
    (sb : Option SortCriteria) :
    (ArchiveManager.sortEntries l sb).Perm l := by
  unfold ArchiveManager.sortEntries
  cases sb.getD .fitnessDesc
  case fitnessDesc => exact List.perm_insertionSort _ _
  case fitnessAsc => exact List.perm_insertionSort _ _
  case dateDesc => exact List.perm_insertionSort _ _
  case dateAsc => exact List.perm_insertionSort _ _
  case generationDesc => exact List.Perm.refl _
  case generationAsc => exact List.Perm.refl _

/-- Helper: the two sequential fitness filters of `search` equal the
single brute-force range filter. -/
theorem filter_range_eq (l : List ArchiveEntry) (lo hi : ℚ) :
    (l.filter (fun e => lo ≤ e.fitnessMetrics.overall)).filter
      (fun e => e.fitnessMetrics.overall ≤ hi) =
    l.filter (fun e => lo ≤ e.fitnessMetrics.overall ∧
      e.fitnessMetrics.overall ≤ hi) := by
  rw [List.filter_filter]
  apply List.filter_congr
  intro x _
  simp [Bool.and_comm]

/-- C9 amended: for a query carrying only a fitness range `[lo, hi]` (and
an optional sort order), `totalCount` always equals the size of the
brute-force filter `lo ≤ fitness.overall ≤ hi` over all entries (both
bounds inclusive), and the returned entries are exactly that set (as a
permutation, in the requested order) *provided* the matches fit within the
default page of 50; beyond that the result is truncated by pagination. -/
theorem search_fitness_range_amended (archive : ArchiveState) (lo hi : ℚ)
    (sortBy : Option SortCriteria)
    (hsmall : (archive.entries.filter (fun e =>
      lo ≤ e.fitnessMetrics.overall ∧
      e.fitnessMetrics.overall ≤ hi)).length ≤ 50) :
    (ArchiveManager.search archive
        (fitnessRangeQuery lo hi sortBy)).totalCount =
      (archive.entries.filter (fun e => lo ≤ e.fitnessMetrics.overall ∧
        e.fitnessMetrics.overall ≤ hi)).length ∧
    (ArchiveManager.search archive
        (fitnessRangeQuery lo hi sortBy)).entries.Perm
      (archive.entries.filter (fun e => lo ≤ e.fitnessMetrics.overall ∧
        e.fitnessMetrics.overall ≤ hi)) := by
  have e1 : (ArchiveManager.search archive
      (fitnessRangeQuery lo hi sortBy)).totalCount =
      (ArchiveManager.sortEntries ((archive.entries.filter (fun e =>
        lo ≤ e.fitnessMetrics.overall)).filter (fun e =>
        e.fitnessMetrics.overall ≤ hi)) sortBy).length := rfl
  have e2 : (ArchiveManager.search archive
      (fitnessRangeQuery lo hi sortBy)).entries =
      ((ArchiveManager.sortEntries ((archive.entries.filter (fun e =>
        lo ≤ e.fitnessMetrics.overall)).filter (fun e =>
        e.fitnessMetrics.overall ≤ hi)) sortBy).drop 0).take 50 := rfl
  have hperm := sortEntries_perm ((archive.entries.filter (fun e =>
    lo ≤ e.fitnessMetrics.overall)).filter (fun e =>
    e.fitnessMetrics.overall ≤ hi)) sortBy
  constructor
  · rw [e1, hperm.length_eq, filter_range_eq]
  · rw [e2, List.drop_zero, List.take_of_length_le
      (by rw [hperm.length_eq, filter_range_eq]; exact hsmall),
      ← filter_range_eq]
    exact hperm

/-- C9 amended witness: a two-entry archive where the range `[0.5, 1]`
matches one entry. -/
theorem search_fitness_range_amended_witness :
    ((ArchiveState.mk [entryAt 0,
        { entryAt 1 with fitnessMetrics :=
          { overall := 9/10
            components :=
              { codeQuality := 9/10, performance := 9/10, reliability := 9/10
                userSatisfaction := 9/10, resourceEfficiency := 9/10 }
            timestamp := 0 } }] ⟨fun _ => []⟩).entries.filter (fun e =>
      (6/10 : ℚ) ≤ e.fitnessMetrics.overall ∧
      e.fitnessMetrics.overall ≤ 1)).length ≤ 50 ∧
    ((ArchiveManager.search (ArchiveState.mk [entryAt 0,
        { entryAt 1 with fitnessMetrics :=
          { overall := 9/10
            components :=
              { codeQuality := 9/10, performance := 9/10, reliability := 9/10
                userSatisfaction := 9/10, resourceEfficiency := 9/10 }
            timestamp := 0 } }] ⟨fun _ => []⟩)
        (fitnessRangeQuery (6/10) 1 none)).totalCount =
      ((ArchiveState.mk [entryAt 0,
        { entryAt 1 with fitnessMetrics :=
          { overall := 9/10
            components :=
              { codeQuality := 9/10, performance := 9/10, reliability := 9/10
                userSatisfaction := 9/10, resourceEfficiency := 9/10 }
            timestamp := 0 } }] ⟨fun _ => []⟩).entries.filter (fun e =>
        (6/10 : ℚ) ≤ e.fitnessMetrics.overall ∧
        e.fitnessMetrics.overall ≤ 1)).length ∧
     (ArchiveManager.search (ArchiveState.mk [entryAt 0,
        { entryAt 1 with fitnessMetrics :=
          { overall := 9/10
            components :=
              { codeQuality := 9/10, performance := 9/10, reliability := 9/10
                userSatisfaction := 9/10, resourceEfficiency := 9/10 }
            timestamp := 0 } }] ⟨fun _ => []⟩)
        (fitnessRangeQuery (6/10) 1 none)).entries.Perm
      ((ArchiveState.mk [entryAt 0,
        { entryAt 1 with fitnessMetrics :=
          { overall := 9/10
            components :=
              { codeQuality := 9/10, performance := 9/10, reliability := 9/10
                userSatisfaction := 9/10, resourceEfficiency := 9/10 }
            timestamp := 0 } }] ⟨fun _ => []⟩).entries.filter (fun e =>
        (6/10 : ℚ) ≤ e.fitnessMetrics.overall ∧
        e.fitnessMetrics.overall ≤ 1))) :=
  ⟨by with_unfolding_all decide,
   search_fitness_range_amended _ (6/10) 1 none
     (by with_unfolding_all decide)⟩

/-! Section: C4 and C10 — evolve: single-flight guard and generation accounting -/

/-- Helper: `select` succeeds for every strategy on a non-empty population
with a length-preserving shuffle (only the tournament path can fail, and
only on an empty population). -/
theorem select_ok (strategy : SelectionStrategyType)
    (shuffle : SelectionStrategy.Shuffle) (r : Nat → ℚ) (k : Nat)
    (agents : List PopulationAgent) (count : Nat)
    (hne : agents ≠ [])
    (hshuffle : ∀ j l, (shuffle j l).length = l.length) :
    ∃ v, SelectionStrategy.select strategy shuffle r k agents count =
      .ok v := by
  cases strategy with
  | rank => exact ⟨_, rfl⟩
  | rouletteWheel => exact ⟨_, rfl⟩
  | tournament =>
    obtain ⟨res, kEnd, hok, _⟩ := tournamentSelection_ok shuffle k agents
      count hne hshuffle
    exact ⟨_, hok⟩
  | truncationSelection =>
    obtain ⟨res, kEnd, hok, _⟩ := tournamentSelection_ok shuffle k agents
      count hne hshuffle
    exact ⟨_, hok⟩
  | stochasticUniversalSampling =>
    obtain ⟨res, kEnd, hok, _⟩ := tournamentSelection_ok shuffle k agents
      count hne hshuffle
    exact ⟨_, hok⟩

/-- Helper: re-evaluating fitness keeps the population non-empty. -/
theorem evaluatePopulation_ne_nil (env : Env) (pop : Population)
    (h : pop.agents ≠ []) :
    (EvolutionEngine.evaluatePopulation env pop).agents ≠ [] := by
  have hl : (EvolutionEngine.evaluatePopulation env pop).agents.length =
      pop.agents.length := by
    simp [EvolutionEngine.evaluatePopulation]
  intro hnil
  rw [hnil] at hl
  exact h (List.eq_nil_of_length_eq_zero hl.symm)

/-- Helper: one generation of the cycle loop succeeds on a non-empty
population. -/
theorem runGeneration_ok (cfg : EvolutionConfig) (env : Env) (genIdx : Nat)
    (ls : EvolutionEngine.LoopState)
    (hne : ls.curPop.agents ≠ [])
    (hshuffle : ∀ j l, (env.shuffle j l).length = l.length) :
    ∃ ls1, EvolutionEngine.runGeneration cfg env genIdx ls = .ok ls1 := by
  obtain ⟨v, hsel⟩ := select_ok cfg.selectionStrategy env.shuffle env.rng
    ls.k (EvolutionEngine.evaluatePopulation env ls.curPop).agents
    (jsFloorNat
      (((EvolutionEngine.evaluatePopulation env ls.curPop).agents.length : ℚ) *
        cfg.crossoverRate))
    (evaluatePopulation_ne_nil env ls.curPop hne) hshuffle
  obtain ⟨parents, k1⟩ := v
  simp only [EvolutionEngine.runGeneration]
  rw [show EvolutionEngine.selectParents cfg env ls.k
      (EvolutionEngine.evaluatePopulation env ls.curPop) = .ok (parents, k1)
    from hsel]
  exact ⟨_, rfl⟩

/-- Helper: a one-generation cycle on a non-empty population completes,
stamping phase and end time and numbering the cycle
`totalGenerations + 1`. -/
theorem runEvolutionCycle_one_ok (cfg : EvolutionConfig) (env : Env)
    (s : EngineState)
    (hne : s.currentPopulation.agents ≠ [])
    (hshuffle : ∀ j l, (env.shuffle j l).length = l.length) :
    ∃ c ls, EvolutionEngine.runEvolutionCycle cfg env s 1 = .ok (c, ls) ∧
      c.phase = .completed ∧ c.endTime = some env.now ∧
      c.generation = s.history.totalGenerations + 1 := by
  obtain ⟨ls1, h1⟩ := runGeneration_ok cfg env 0
    { curPop := s.currentPopulation
      snapshot := s.currentPopulation
      results := EvolutionEngine.initialResults
      k := 0
      idGen := s.idGen + 1
      mutCount := 0 } hne hshuffle
  have h2 : EvolutionEngine.runGenerations cfg env s.history 1 0
      { curPop := s.currentPopulation
        snapshot := s.currentPopulation
        results := EvolutionEngine.initialResults
        k := 0
        idGen := s.idGen + 1
        mutCount := 0 } = .ok ls1 := by
    simp only [EvolutionEngine.runGenerations, h1]
    cases hconv : EvolutionEngine.hasConverged cfg s.history <;>
      simp [hconv, EvolutionEngine.runGenerations]
  refine ⟨{ id := s.idGen
            generation := s.history.totalGenerations + 1
            startTime := env.now
            endTime := some env.now
            phase := .completed
            population := ls1.snapshot
            mutations := []
            results := ls1.results }, ls1, ?_, rfl, rfl, rfl⟩
  simp only [EvolutionEngine.runEvolutionCycle, h2]

/-- C4: a call to `evolve` while `isRunning` is set fails immediately with
the `AlreadyRunning` error — the guard throws before touching any state,
so the in-flight cycle is untouched — while a call on an idle engine with
a non-empty population (and a length-preserving shuffle) completes one
generation and returns a cycle with `phase = Completed` and a stamped
`endTime`, leaving the engine idle again. -/
theorem evolve_single_flight (cfg : EvolutionConfig) (env : Env)
    (sRun sIdle : EngineState)
    (hrun : sRun.isRunning = true)
    (hidle : sIdle.isRunning = false)
    (hne : sIdle.currentPopulation.agents ≠ [])
    (hshuffle : ∀ j l, (env.shuffle j l).length = l.length) :
    EvolutionEngine.evolve cfg env sRun 1 = .error .alreadyRunning ∧
    ∃ c s', EvolutionEngine.evolve cfg env sIdle 1 = .ok (c, s') ∧
      c.phase = .completed ∧ c.endTime = some env.now ∧
      s'.isRunning = false := by
  constructor
  · simp [EvolutionEngine.evolve, hrun]
  · obtain ⟨c, ls, hcycle, hphase, hend, hgen⟩ :=
      runEvolutionCycle_one_ok cfg env sIdle hne hshuffle
    refine ⟨c,
      { isRunning := false
        currentPopulation := ls.curPop
        history :=
          { cycles := sIdle.history.cycles ++ [c]
            totalGenerations := sIdle.history.totalGenerations + 1
            totalMutations := sIdle.history.totalMutations + ls.mutCount
            successfulMutations :=
              sIdle.history.successfulMutations + ls.mutCount }
        idGen := ls.idGen }, ?_, hphase, hend, rfl⟩
    simp only [EvolutionEngine.evolve, hidle, Bool.false_eq_true,
      if_false, hcycle]

/-- Fixture environment: zero draws, clock 0, identity shuffle, component
evaluation that always fails (exercising the minimal-fitness fallback). -/
def envW : Env :=
  { rng := rngZero
    now := 0
    math := zeroMath
    shuffle := shuffleId
    evalComponents := fun _ => .error .exec }

/-- Fixture idle engine state with a one-member population. -/
def sIdleW : EngineState :=
  { isRunning := false
    currentPopulation := mkPopulation [mkMember 1 (1/2)]
    history :=
      { cycles := [], totalGenerations := 0, totalMutations := 0
        successfulMutations := 0 }
    idGen := 10 }

/-- Fixture engine state with a cycle in flight. -/
def sRunW : EngineState := { sIdleW with isRunning := true }

/-- C4 witness at concrete inputs. -/
theorem evolve_single_flight_witness :
    sRunW.isRunning = true ∧
    sIdleW.isRunning = false ∧
    sIdleW.currentPopulation.agents ≠ [] ∧
    (∀ j l, (envW.shuffle j l).length = l.length) ∧
    (EvolutionEngine.evolve cfgSize5 envW sRunW 1 = .error .alreadyRunning ∧
     ∃ c s', EvolutionEngine.evolve cfgSize5 envW sIdleW 1 = .ok (c, s') ∧
       c.phase = .completed ∧ c.endTime = some envW.now ∧
       s'.isRunning = false) :=
  ⟨rfl, rfl, by with_unfolding_all decide, fun j l => rfl,
   evolve_single_flight cfgSize5 envW sRunW sIdleW rfl rfl
     (by with_unfolding_all decide) (fun j l => rfl)⟩

/-- C10: whenever `evolve(generations)` returns successfully, the stored
history's `totalGenerations` has grown by exactly the *requested* number of
generations — the increment `totalGenerations += generations` does not
consult how many generations actually ran before a convergence break — and
the returned cycle was numbered `totalGenerations + 1` from the history as
of the call. -/
theorem evolve_generation_accounting (cfg : EvolutionConfig) (env : Env)
    (s : EngineState) (generations : Nat) (c : EvolutionCycle)
    (s' : EngineState)
    (h : EvolutionEngine.evolve cfg env s generations = .ok (c, s')) :
    s'.history.totalGenerations =
      s.history.totalGenerations + generations ∧
    c.generation = s.history.totalGenerations + 1 := by
  simp only [EvolutionEngine.evolve] at h
  split at h
  · exact absurd h (by simp)
  · split at h
    · exact absurd h (by simp)
    · rename_i cycle ls heq
      simp only [Except.ok.injEq, Prod.mk.injEq] at h
      obtain ⟨hc, hs⟩ := h
      constructor
      · rw [← hs]
      · rw [← hc]
        simp only [EvolutionEngine.runEvolutionCycle] at heq
        split at heq
        · exact absurd heq (by simp)
        · simp only [Except.ok.injEq, Prod.mk.injEq] at heq
          rw [← heq.1]

/-- Truth-value of an `Except`, used to extract a computed success. -/
def exceptHasValue {ε α : Type} : Except ε α → Bool
  | .ok _ => true
  | .error _ => false

/-- C10 witness: a concrete one-generation run whose accounting the claim
theorem settles. -/
theorem evolve_generation_accounting_witness :
    ∃ c s', EvolutionEngine.evolve cfgSize5 envW sIdleW 1 = .ok (c, s') ∧
      s'.history.totalGenerations = sIdleW.history.totalGenerations + 1 ∧
      c.generation = sIdleW.history.totalGenerations + 1 := by
  have hbool : exceptHasValue (EvolutionEngine.evolve cfgSize5 envW
      sIdleW 1) = true := by
    with_unfolding_all decide
  obtain ⟨c, s', hEq⟩ : ∃ c s',
      EvolutionEngine.evolve cfgSize5 envW sIdleW 1 = .ok (c, s') := by
    cases hE : EvolutionEngine.evolve cfgSize5 envW sIdleW 1 with
    | ok v => exact ⟨v.1, v.2, by rfl⟩
    | error e =>
      rw [hE] at hbool
      simp [exceptHasValue] at hbool
  have hacc := evolve_generation_accounting cfgSize5 envW sIdleW 1 c s' hEq
  exact ⟨c, s', hEq, hacc.1, hacc.2⟩

end DGM
